import Mathlib

/-!
Verification of the calibration and bounce-detection engine implemented in
`src/ml/hawkeye_video_test.py` of the superTennis repository.

Python floats are modelled as rationals (`ℚ`), frame indices as `Int`,
Python `None`-able values as `Option`, and Python exceptions as `Except`.
Stateful methods of `BallTracker` and `CourtCalibrator` are embedded in
state-passing style: a method that may mutate its object takes the object
and returns the updated object (together with its return value, if any).
The external `cv2.getPerspectiveTransform` routine is not part of the
repository; it is modelled as an explicit function parameter `gpt`
producing a 3x3 homography matrix, and `cv2.perspectiveTransform` as the
standard homogeneous application of such a matrix.
-/

namespace HawkEye

/-- Constant `CourtDimensions.SINGLES_HALF_WIDTH` (meters). -/
def SINGLES_HALF_WIDTH : ℚ := 4.115

/-- Constant `CourtDimensions.DOUBLES_HALF_WIDTH` (meters). -/
def DOUBLES_HALF_WIDTH : ℚ := 5.485

/-- Constant `CourtDimensions.HALF_LENGTH` (meters). -/
def HALF_LENGTH : ℚ := 11.885

/-- Dataclass `Detection`: a single-frame ball detection. -/
structure Detection where
  frame_id : Int
  timestamp : ℚ
  pixel_x : ℚ
  pixel_y : ℚ
  court_x : Option ℚ := none
  court_y : Option ℚ := none
  confidence : ℚ := 0
  bbox_width : ℚ := 0
  bbox_height : ℚ := 0
deriving DecidableEq

/-- Default detection used only to make list indexing total; every index
at which it is used is in range (guarded by explicit length checks, as in
the Python source where indexing cannot fail there). -/
def dDefault : Detection :=
  { frame_id := 0, timestamp := 0, pixel_x := 0, pixel_y := 0 }

/-- Dataclass `Bounce`: a detected bounce event with its in/out verdict. -/
structure Bounce where
  frame_id : Int
  timestamp : ℚ
  pixel_x : ℚ
  pixel_y : ℚ
  court_x : ℚ
  court_y : ℚ
  is_in : Bool
  distance_from_line : ℚ
deriving DecidableEq

/-- Function `is_point_in_bounds(x, y, match_type="singles")`: returns
`(is_in, signed_distance, line_type)`.  The four margins, the minimum over
the dict values (Python `min` folds left over insertion order
left/right/far/near), the first-match line lookup, the rectangle test and
the final sign adjustment are translated clause by clause. -/
def is_point_in_bounds (x y : ℚ) (match_type : String := "singles") :
    Bool × ℚ × String :=
  let half_width := if match_type = "singles" then SINGLES_HALF_WIDTH else DOUBLES_HALF_WIDTH
  let half_length := HALF_LENGTH
  let dist_to_left := x + half_width
  let dist_to_right := half_width - x
  let dist_to_far := half_length - y
  let dist_to_near := y + half_length
  let min_dist := min (min (min dist_to_left dist_to_right) dist_to_far) dist_to_near
  let line_type :=
    if dist_to_left = min_dist then "left_sideline"
    else if dist_to_right = min_dist then "right_sideline"
    else if dist_to_far = min_dist then "far_baseline"
    else "near_baseline"
  let is_in := decide (-half_width ≤ x ∧ x ≤ half_width ∧
    -half_length ≤ y ∧ y ≤ half_length)
  let signed_distance := if is_in then min_dist else -min_dist
  (is_in, signed_distance, line_type)

/-- A 3x3 matrix as produced by the external `cv2.getPerspectiveTransform`. -/
structure Hmat where
  m00 : ℚ
  m01 : ℚ
  m02 : ℚ
  m10 : ℚ
  m11 : ℚ
  m12 : ℚ
  m20 : ℚ
  m21 : ℚ
  m22 : ℚ
deriving DecidableEq

/-- Homogeneous application of a 3x3 matrix to a 2D point, modelling the
external `cv2.perspectiveTransform` call. -/
def applyHmat (m : Hmat) (x y : ℚ) : ℚ × ℚ :=
  let w := m.m20 * x + m.m21 * y + m.m22
  ((m.m00 * x + m.m01 * y + m.m02) / w, (m.m10 * x + m.m11 * y + m.m12) / w)

/-- Class `CourtCalibrator`: the fields relevant to coordinate transforms
(the interactive-UI fields are out of scope). -/
structure CourtCalibrator where
  pixel_points : List (ℚ × ℚ) := []
  court_points : List (ℚ × ℚ) := []
  transform_matrix : Option Hmat := none
  inverse_matrix : Option Hmat := none
deriving DecidableEq

/-- Method `CourtCalibrator.pixel_to_court`: raises `ValueError` when
`transform_matrix is None`, otherwise applies the perspective transform. -/
def CourtCalibrator.pixel_to_court (c : CourtCalibrator) (px py : ℚ) :
    Except String (ℚ × ℚ) :=
  match c.transform_matrix with
  | none => .error "ValueError: calibrate first"
  | some m => .ok (applyHmat m px py)

/-- Method `CourtCalibrator.court_to_pixel`: raises `ValueError` when
`inverse_matrix is None`, otherwise applies the inverse transform. -/
def CourtCalibrator.court_to_pixel (c : CourtCalibrator) (cx cy : ℚ) :
    Except String (ℚ × ℚ) :=
  match c.inverse_matrix with
  | none => .error "ValueError: calibrate first"
  | some m => .ok (applyHmat m cx cy)

/-- Method `CourtCalibrator._compute_transform`: raises `ValueError`
unless there are exactly 4 pixel points and 4 court points, otherwise
stores the forward and inverse matrices computed by the external
`cv2.getPerspectiveTransform` (modelled by the parameter `gpt`). -/
def CourtCalibrator.compute_transform
    (gpt : List (ℚ × ℚ) → List (ℚ × ℚ) → Hmat) (c : CourtCalibrator) :
    Except String CourtCalibrator :=
  if c.pixel_points.length ≠ 4 ∨ c.court_points.length ≠ 4 then
    .error "ValueError: need 4 pixel points and 4 court points"
  else
    .ok { c with
      transform_matrix := some (gpt c.pixel_points c.court_points),
      inverse_matrix := some (gpt c.court_points c.pixel_points) }

/-- The `try: court_x, court_y = calibrator.pixel_to_court(px, py)
except: pass` pattern with both variables initialised to `None`. -/
def toCourtOpt (cal : CourtCalibrator) (px py : ℚ) : Option ℚ × Option ℚ :=
  match cal.pixel_to_court px py with
  | .ok p => (some p.1, some p.2)
  | .error _ => (none, none)

/-- Class `BallTracker`: the mutable tracking state set up in
`BallTracker.__init__`. -/
structure BallTracker where
  fps : ℚ
  bounce_cooldown : ℚ := 0.5
  positions : List Detection := []
  all_positions : List Detection := []
  bounces : List Bounce := []
  last_bounce_time : ℚ := -1
  last_bounce_frame : Int := -1
deriving DecidableEq

/-- Constructor `BallTracker(fps, bounce_cooldown=0.5)`. -/
def BallTracker.init (fps : ℚ) (bounce_cooldown : ℚ := 0.5) : BallTracker :=
  { fps := fps, bounce_cooldown := bounce_cooldown }

/-- Local constant `MAX_X` of `BallTracker._is_valid_court_position`. -/
def MAX_X : ℚ := SINGLES_HALF_WIDTH + 3.0

/-- Local constant `MAX_Y` of `BallTracker._is_valid_court_position`. -/
def MAX_Y : ℚ := HALF_LENGTH + 3.0

/-- Method `BallTracker._is_valid_court_position`. -/
def is_valid_court_position (x y : ℚ) : Bool :=
  decide (|x| ≤ MAX_X ∧ |y| ≤ MAX_Y)

/-- Python `[recent[i+1].timestamp - recent[i].timestamp for i in
range(len(recent)-1)]`. -/
def timeGaps (l : List Detection) : List ℚ :=
  (l.zip l.tail).map fun p => p.2.timestamp - p.1.timestamp

/-- Python `max(time_gaps) if time_gaps else 0`. -/
def listMax : List ℚ → ℚ
  | [] => 0
  | t :: ts => ts.foldl max t

/-- Construction of a `Bounce` from an accepted candidate detection with
court coordinates `(cx, cy)`; the verdict comes from `is_point_in_bounds`
called with its default `match_type` (this is the literal `Bounce(...)`
constructor call shared by both detection passes in the source). -/
def mkBounce (d : Detection) (cx cy : ℚ) : Bounce :=
  let r := is_point_in_bounds cx cy
  { frame_id := d.frame_id, timestamp := d.timestamp,
    pixel_x := d.pixel_x, pixel_y := d.pixel_y,
    court_x := cx, court_y := cy,
    is_in := r.1, distance_from_line := r.2.1 }

/-- Python `recent = self.positions[-7:]` (meaningful when at least 7
positions are stored, which is the only context it is taken in). -/
def recentOf (trk : BallTracker) : List Detection :=
  trk.positions.drop (trk.positions.length - 7)

/-- Python `bounce_detection = recent[mid]` with `mid = 3` (the window
always has exactly 7 entries there). -/
def candOf (trk : BallTracker) : Detection :=
  (recentOf trk).getD 3 dDefault

/-- Body of `BallTracker._detect_bounce_pixel` from the point where
`recent = self.positions[-7:]` has been taken. -/
def detectOnRecent (trk : BallTracker) (recent : List Detection) : BallTracker :=
  let time_gaps := timeGaps recent
  let max_gap := listMax time_gaps
  if 0.5 < max_gap then trk
  else
    let pixel_ys := recent.map Detection.pixel_y
    let mid := recent.length / 2
    let left_avg := (pixel_ys.take mid).sum / (mid : ℚ)
    let right_avg := (pixel_ys.drop (mid + 1)).sum / ((recent.length : ℚ) - (mid : ℚ) - 1)
    let center := pixel_ys.getD mid 0
    if left_avg + 15 < center ∧ right_avg + 15 < center then
      let bounce_detection := recent.getD mid dDefault
      let current_time := bounce_detection.timestamp
      if current_time - trk.last_bounce_time < trk.bounce_cooldown then trk
      else
        match bounce_detection.court_x, bounce_detection.court_y with
        | some cx, some cy =>
          if is_valid_court_position cx cy then
            { trk with
              bounces := trk.bounces ++ [mkBounce bounce_detection cx cy],
              last_bounce_time := current_time,
              last_bounce_frame := bounce_detection.frame_id }
          else trk
        | some _, none => trk
        | none, _ => trk
    else trk

/-- Method `BallTracker._detect_bounce_pixel`. -/
def detect_bounce_pixel (trk : BallTracker) : BallTracker :=
  if trk.positions.length < 7 then trk
  else detectOnRecent trk (recentOf trk)

/-- Method `BallTracker.add_detection`: append to both buffers, evict the
oldest sliding-window entry past 60 (`self.positions.pop(0)`), then run
the streaming bounce detector. -/
def add_detection (trk : BallTracker) (detection : Detection) : BallTracker :=
  let trk1 := { trk with
    positions := trk.positions ++ [detection],
    all_positions := trk.all_positions ++ [detection] }
  let trk2 := if 60 < trk1.positions.length
    then { trk1 with positions := trk1.positions.tail } else trk1
  detect_bounce_pixel trk2

/-- Streaming ingestion of a whole observation sequence: a fresh
`BallTracker` fed by successive `add_detection` calls, as in
`HawkEyeVideoProcessor.process_video`. -/
def runTracker (fps bounce_cooldown : ℚ) (obs : List Detection) : BallTracker :=
  obs.foldl add_detection (BallTracker.init fps bounce_cooldown)

/-- One synthetic interpolated detection (loop body of
`BallTracker.interpolate_trajectory` at index `j` within a gap). -/
def mkInterpolated (cal : CourtCalibrator) (p1 p2 : Detection)
    (frame_gap : Int) (j : Nat) : Detection :=
  let t : ℚ := (j : ℚ) / (frame_gap : ℚ)
  let px := p1.pixel_x + t * (p2.pixel_x - p1.pixel_x)
  let py := p1.pixel_y + t * (p2.pixel_y - p1.pixel_y)
  let court := toCourtOpt cal px py
  { frame_id := p1.frame_id + (j : Int),
    timestamp := p1.timestamp + t * (p2.timestamp - p1.timestamp),
    pixel_x := px, pixel_y := py,
    court_x := court.1, court_y := court.2,
    confidence := 0.5,
    bbox_width := p1.bbox_width, bbox_height := p1.bbox_height }

/-- Synthetic detections inserted between two consecutive stored
observations: `for j in range(1, frame_gap)` guarded by
`3 < frame_gap <= 15`. -/
def interpSegment (cal : CourtCalibrator) (p1 p2 : Detection) : List Detection :=
  let frame_gap := p2.frame_id - p1.frame_id
  if 3 < frame_gap ∧ frame_gap ≤ 15 then
    (List.range' 1 (frame_gap.toNat - 1)).map (mkInterpolated cal p1 p2 frame_gap)
  else []

/-- Main loop of `BallTracker.interpolate_trajectory`: each `p1` is
appended, followed by its gap fill, and the last point is appended at
the end. -/
def interpolateAux (cal : CourtCalibrator) : List Detection → List Detection
  | [] => []
  | [p] => [p]
  | p1 :: p2 :: rest => (p1 :: interpSegment cal p1 p2) ++ interpolateAux cal (p2 :: rest)

/-- Method `BallTracker.interpolate_trajectory`; the `BallTracker`
component of the result is the state of the tracker after the call (the
method only reads `self.all_positions`). -/
def interpolate_trajectory (cal : CourtCalibrator) (trk : BallTracker) :
    List Detection × BallTracker :=
  if trk.all_positions.length < 2 then (trk.all_positions, trk)
  else (interpolateAux cal trk.all_positions, trk)

/-- Loop body of the batch pass of
`BallTracker.detect_bounces_from_trajectory` acting on one 7-point
window, threading the accumulated `additional_bounces`. -/
def batchStep (bounce_cooldown : ℚ) (existing acc : List Bounce)
    (window : List Detection) : List Bounce :=
  let pixel_ys := window.map Detection.pixel_y
  let mid := 3
  let left_avg := (pixel_ys.take mid).sum / (mid : ℚ)
  let right_avg := (pixel_ys.drop (mid + 1)).sum / ((window.length : ℚ) - (mid : ℚ) - 1)
  let center := pixel_ys.getD mid 0
  if left_avg + 12 < center ∧ right_avg + 12 < center then
    let bounce_detection := window.getD mid dDefault
    let is_duplicate := (existing ++ acc).any fun b =>
      decide (|b.timestamp - bounce_detection.timestamp| < bounce_cooldown)
    if is_duplicate then acc
    else
      match bounce_detection.court_x, bounce_detection.court_y with
      | some cx, some cy =>
        if is_valid_court_position cx cy then acc ++ [mkBounce bounce_detection cx cy]
        else acc
      | some _, none => acc
      | none, _ => acc
  else acc

/-- Batch-pass loop `for i in range(3, len(full_trajectory) - 3)`,
phrased as a left-to-right sweep over all length-7 windows. -/
def batchLoop (bounce_cooldown : ℚ) (existing : List Bounce) :
    List Bounce → List Detection → List Bounce
  | acc, [] => acc
  | acc, d :: rest =>
    if 7 ≤ (d :: rest).length then
      batchLoop bounce_cooldown existing
        (batchStep bounce_cooldown existing acc ((d :: rest).take 7)) rest
    else acc

/-- Method `BallTracker.detect_bounces_from_trajectory`: interpolate,
rescan, deduplicate against existing bounces, merge and sort by
`frame_id` (Python's stable `list.sort`, modelled by `List.mergeSort`).
The `BallTracker` component of the result is the state of the tracker
after the call. -/
def detect_bounces_from_trajectory (cal : CourtCalibrator) (trk : BallTracker) :
    List Bounce × BallTracker :=
  let ft := interpolate_trajectory cal trk
  let full_trajectory := ft.1
  let trk1 := ft.2
  if full_trajectory.length < 7 then (trk1.bounces, trk1)
  else
    let additional_bounces := batchLoop trk1.bounce_cooldown trk1.bounces [] full_trajectory
    let all_bounces := (trk1.bounces ++ additional_bounces).mergeSort
      (fun a b => decide (a.frame_id ≤ b.frame_id))
    (all_bounces, trk1)

/-! Concrete inputs used by the witness theorems. -/

/-- An observation at frame `i` with pixel y-coordinate `y`, court
coordinate `(0, 0)` and timestamp `0`. -/
def mkObs (i : Int) (y : ℚ) : Detection :=
  { frame_id := i, timestamp := 0, pixel_x := 0, pixel_y := y,
    court_x := some 0, court_y := some 0, confidence := 1 }

/-- A bounce-shaped 7-observation sequence: flat, a 100-pixel dip at the
center frame, flat again. -/
def wObs : List Detection :=
  [mkObs 0 0, mkObs 1 0, mkObs 2 0, mkObs 3 100, mkObs 4 0, mkObs 5 0, mkObs 6 0]

/-- The bounce the streaming pass produces on `wObs`. -/
def wBounce : Bounce :=
  { frame_id := 3, timestamp := 0, pixel_x := 0, pixel_y := 100,
    court_x := 0, court_y := 0, is_in := true, distance_from_line := 4.115 }

/-- A tracker state holding the bounce-shaped window `wObs`. -/
def wTrk : BallTracker :=
  { fps := 30, positions := wObs, all_positions := wObs }

/-- The same state but with a last-accepted-bounce timestamp so recent
that the candidate at the window center is inside the cooldown. -/
def wTrkCooling : BallTracker :=
  { fps := 30, positions := wObs, all_positions := wObs, last_bounce_time := 100 }

/-- Two observations 5 frames apart (for the interpolation witness). -/
def wP1 : Detection := { frame_id := 0, timestamp := 0, pixel_x := 0, pixel_y := 0 }

/-- Second endpoint of the 5-frame gap. -/
def wP2 : Detection := { frame_id := 5, timestamp := 1/2, pixel_x := 10, pixel_y := 20 }

/-- An observation 20 frames after `wP1` (gap too long to interpolate). -/
def wP3 : Detection := { frame_id := 20, timestamp := 2, pixel_x := 10, pixel_y := 20 }

/-- A calibrator holding 4 point correspondences but no matrices yet. -/
def wCal4 : CourtCalibrator :=
  { pixel_points := [(0, 0), (100, 0), (100, 100), (0, 100)],
    court_points := [(-4.115, 11.885), (4.115, 11.885), (4.115, -11.885), (-4.115, -11.885)] }

/-- A stand-in for the external `cv2.getPerspectiveTransform`: always the
identity matrix. -/
def wGpt : List (ℚ × ℚ) → List (ℚ × ℚ) → Hmat :=
  fun _ _ => ⟨1, 0, 0, 0, 1, 0, 0, 0, 1⟩

/-- The tracker state reached by feeding `wObs` through `add_detection`
with fps 30 and cooldown 1/2. -/
def wTrkAfter : BallTracker :=
  { fps := 30, bounce_cooldown := 1/2, positions := wObs, all_positions := wObs,
    bounces := [wBounce], last_bounce_time := 0, last_bounce_frame := 3 }

/-- Invariant maintained by the streaming pass: the cooldown
configuration is fixed, accepted bounces are separated by at least the
cooldown in order, `last_bounce_time` bounds all accepted timestamps,
the sliding window never holds more than the full history, and no bounce
exists before 7 observations have been stored. -/
def StreamInv (c : ℚ) (trk : BallTracker) : Prop :=
  trk.bounce_cooldown = c ∧
  List.Pairwise (fun u v : Bounce => u.timestamp + c ≤ v.timestamp) trk.bounces ∧
  (∀ b ∈ trk.bounces, b.timestamp ≤ trk.last_bounce_time) ∧
  trk.positions.length ≤ trk.all_positions.length ∧
  (trk.all_positions.length < 7 → trk.bounces = [])

/-- A bounce whose stored verdict agrees with the singles-court
classification of its own stored court coordinates. -/
def VerdictOK (b : Bounce) : Prop :=
  b.is_in = (is_point_in_bounds b.court_x b.court_y "singles").1 ∧
  b.distance_from_line = (is_point_in_bounds b.court_x b.court_y "singles").2.1

/-! General helper lemmas. -/

lemma le_foldl_max (b : ℚ) (l : List ℚ) : b ≤ l.foldl max b := by
  induction l generalizing b with
  | nil => simp
  | cons x xs ih => exact le_trans (le_max_left b x) (ih (max b x))

lemma mem_le_foldl_max (b : ℚ) (l : List ℚ) (x : ℚ) (hx : x ∈ l) :
    x ≤ l.foldl max b := by
  induction l generalizing b with
  | nil => cases hx
  | cons y ys ih =>
    rcases List.mem_cons.mp hx with h | h
    · subst h; exact le_trans (le_max_right b x) (le_foldl_max _ _)
    · exact ih _ h

lemma le_listMax (x : ℚ) (l : List ℚ) (hx : x ∈ l) : x ≤ listMax l := by
  cases l with
  | nil => cases hx
  | cons t ts =>
    rcases List.mem_cons.mp hx with h | h
    · subst h; exact le_foldl_max _ _
    · exact mem_le_foldl_max _ _ _ h

lemma foldl_max_le (m b : ℚ) (l : List ℚ) (hb : b ≤ m) (h : ∀ x ∈ l, x ≤ m) :
    l.foldl max b ≤ m := by
  induction l generalizing b with
  | nil => simpa using hb
  | cons x xs ih =>
    exact ih (max b x) (max_le hb (h x (List.mem_cons_self _ _))) fun z hz =>
      h z (List.mem_cons_of_mem _ hz)

lemma listMax_le (m : ℚ) (l : List ℚ) (h0 : 0 ≤ m) (h : ∀ x ∈ l, x ≤ m) :
    listMax l ≤ m := by
  cases l with
  | nil => simpa [listMax] using h0
  | cons t ts =>
    exact foldl_max_le m t ts (h t (List.mem_cons_self _ _)) fun z hz =>
      h z (List.mem_cons_of_mem _ hz)

lemma exists_eq_of_length_seven {α : Type} :
    ∀ (l : List α), l.length = 7 → ∃ a b c d e f g, l = [a, b, c, d, e, f, g]
  | [], h => by simp at h
  | [a], h => by simp at h
  | [a, b], h => by simp at h
  | [a, b, c], h => by simp at h
  | [a, b, c, d], h => by simp at h
  | [a, b, c, d, e], h => by simp at h
  | [a, b, c, d, e, f], h => by simp at h
  | [a, b, c, d, e, f, g], _ => ⟨a, b, c, d, e, f, g, rfl⟩
  | a :: b :: c :: d :: e :: f :: g :: x :: t, h => by simp at h

lemma min4_cases (a b c d : ℚ) :
    min (min (min a b) c) d = a ∨ min (min (min a b) c) d = b ∨
    min (min (min a b) c) d = c ∨ min (min (min a b) c) d = d := by
  rcases min_choice (min (min a b) c) d with h | h
  · rw [h]
    rcases min_choice (min a b) c with h2 | h2
    · rw [h2]
      rcases min_choice a b with h3 | h3
      · exact Or.inl h3
      · exact Or.inr (Or.inl h3)
    · exact Or.inr (Or.inr (Or.inl h2))
  · exact Or.inr (Or.inr (Or.inr h))

/-! Claim C1. -/

/-- C1: the boundary classifier `is_point_in_bounds` returns `is_in = true`
exactly when the point lies in the closed court rectangle, and on the
reference inputs it returns `(true, 4.115, left)` at `(0,0)` and signed
distance `0` at `(4.115, 0)`; but at `(5, 0)` it returns the *positive*
signed distance `0.885` (the code negates the already-negative minimum
margin), contradicting the claimed `-0.885` and the function's own
docstring (positive means in, negative means out). -/
theorem is_point_in_bounds_reference_values :
    (∀ x y : ℚ, ((is_point_in_bounds x y "singles").1 = true ↔
      (-SINGLES_HALF_WIDTH ≤ x ∧ x ≤ SINGLES_HALF_WIDTH ∧
       -HALF_LENGTH ≤ y ∧ y ≤ HALF_LENGTH))) ∧
    is_point_in_bounds 0 0 "singles" = (true, 4.115, "left_sideline") ∧
    is_point_in_bounds 4.115 0 "singles" = (true, 0, "right_sideline") ∧
    is_point_in_bounds 5 0 "singles" = (false, 0.885, "right_sideline") := by
  refine ⟨fun x y => by simp [is_point_in_bounds], ?_, ?_, ?_⟩ <;>
    norm_num [is_point_in_bounds, SINGLES_HALF_WIDTH, HALF_LENGTH, min_def]

/-- C1, witness: the rectangle characterisation instantiated at the
interior point `(2, 0)`. -/
theorem is_point_in_bounds_reference_values_witness :
    (is_point_in_bounds 2 0 "singles").1 = true :=
  (is_point_in_bounds_reference_values.1 2 0).mpr
    (by norm_num [SINGLES_HALF_WIDTH, HALF_LENGTH])

/-! Claim C6. -/

/-- C6, counterexample: at the court point `(-5, 11.5)` (singles) the
classifier returns `left_sideline`, although the far baseline has a
strictly smaller unsigned margin (`0.385 < 0.885`); the code in fact
selects the line of minimum *signed* margin, which differs from the
minimum unsigned margin outside the court. -/
theorem nearest_line_not_min_unsigned :
    (is_point_in_bounds (-5) (23/2) "singles").2.2 = "left_sideline" ∧
    |HALF_LENGTH - 23/2| < |(-5 : ℚ) + SINGLES_HALF_WIDTH| := by
  constructor
  · norm_num [is_point_in_bounds, SINGLES_HALF_WIDTH, HALF_LENGTH, min_def]
  · rw [abs_of_nonneg (by norm_num [HALF_LENGTH]),
      abs_of_nonpos (by norm_num [SINGLES_HALF_WIDTH])]
    norm_num [SINGLES_HALF_WIDTH, HALF_LENGTH]

/-- C6, amended: `nearest_line` is the first line, in the fixed
enumeration order left sideline, right sideline, far baseline, near
baseline, whose *signed* margin equals the minimum of the four signed
margins (Python's `min` over the dict values followed by a first-match
comprehension over insertion order). -/
theorem nearest_line_first_min_signed_margin (x y : ℚ) (mt : String) :
    ((([("left_sideline", x + (if mt = "singles" then SINGLES_HALF_WIDTH else DOUBLES_HALF_WIDTH)),
        ("right_sideline", (if mt = "singles" then SINGLES_HALF_WIDTH else DOUBLES_HALF_WIDTH) - x),
        ("far_baseline", HALF_LENGTH - y),
        ("near_baseline", y + HALF_LENGTH)] : List (String × ℚ)).find? fun p =>
          decide (p.2 = min (min (min
            (x + (if mt = "singles" then SINGLES_HALF_WIDTH else DOUBLES_HALF_WIDTH))
            ((if mt = "singles" then SINGLES_HALF_WIDTH else DOUBLES_HALF_WIDTH) - x))
            (HALF_LENGTH - y)) (y + HALF_LENGTH))).map Prod.fst) =
      some (is_point_in_bounds x y mt).2.2 := by
  simp only [is_point_in_bounds]
  set hw := (if mt = "singles" then SINGLES_HALF_WIDTH else DOUBLES_HALF_WIDTH) with hhw
  set dl := x + hw with hdl
  set dr := hw - x with hdr
  set df := HALF_LENGTH - y with hdf
  set dn := y + HALF_LENGTH with hdn
  set m := min (min (min dl dr) df) dn with hm
  by_cases h1 : dl = m
  · simp [List.find?_cons, h1]
  · by_cases h2 : dr = m
    · simp [List.find?_cons, h1, h2]
    · by_cases h3 : df = m
      · simp [List.find?_cons, h1, h2, h3]
      · have h4 : dn = m := by
          rcases min4_cases dl dr df dn with h | h | h | h
          · exact absurd h.symm h1
          · exact absurd h.symm h2
          · exact absurd h.symm h3
          · exact h.symm
        simp [List.find?_cons, h1, h2, h3, h4]

/-- C6, witness: the amended first-match-of-minimum-signed-margin rule,
instantiated and evaluated at the counterexample point `(-5, 11.5)`,
yields the left sideline. -/
theorem nearest_line_first_min_signed_margin_witness :
    (is_point_in_bounds (-5) (23/2) "singles").2.2 = "left_sideline" := by
  have h := nearest_line_first_min_signed_margin (-5) (23/2) "singles"
  norm_num [SINGLES_HALF_WIDTH, DOUBLES_HALF_WIDTH, HALF_LENGTH, min_def,
    List.find?] at h
  exact h.symm

/-! Claim C8. -/

/-- C8: `pixel_to_court` raises exactly when no forward matrix has been
computed, `court_to_pixel` raises exactly when no inverse matrix has been
computed, and after a successful `_compute_transform` both matrices are
set, so neither call raises on any input. -/
theorem transform_raises_iff_not_calibrated :
    (∀ (c : CourtCalibrator) (px py : ℚ),
      ((c.pixel_to_court px py).isOk = false ↔ c.transform_matrix = none)) ∧
    (∀ (c : CourtCalibrator) (cx cy : ℚ),
      ((c.court_to_pixel cx cy).isOk = false ↔ c.inverse_matrix = none)) ∧
    (∀ (gpt : List (ℚ × ℚ) → List (ℚ × ℚ) → Hmat) (c c' : CourtCalibrator),
      CourtCalibrator.compute_transform gpt c = .ok c' →
      ∀ px py cx cy : ℚ,
        (c'.pixel_to_court px py).isOk = true ∧ (c'.court_to_pixel cx cy).isOk = true) := by
  refine ⟨?_, ?_, ?_⟩
  · intro c px py
    cases h : c.transform_matrix <;>
      simp [CourtCalibrator.pixel_to_court, h, Except.isOk, Except.toBool]
  · intro c cx cy
    cases h : c.inverse_matrix <;>
      simp [CourtCalibrator.court_to_pixel, h, Except.isOk, Except.toBool]
  · intro gpt c c' h px py cx cy
    unfold CourtCalibrator.compute_transform at h
    split at h
    · cases h
    · cases h
      simp [CourtCalibrator.pixel_to_court, CourtCalibrator.court_to_pixel,
        Except.isOk, Except.toBool]

/-- C8, witness: on a calibrator with four point pairs and no matrices,
`pixel_to_court` raises; after `_compute_transform` succeeds, both
transforms succeed at a sample input. -/
theorem transform_raises_iff_not_calibrated_witness :
    ((wCal4.pixel_to_court 50 50).isOk = false) ∧
    ∃ c', CourtCalibrator.compute_transform wGpt wCal4 = .ok c' ∧
      (c'.pixel_to_court 50 50).isOk = true ∧ (c'.court_to_pixel 1 2).isOk = true := by
  have h := transform_raises_iff_not_calibrated
  refine ⟨(h.1 wCal4 50 50).mpr rfl, ?_⟩
  have hok : CourtCalibrator.compute_transform wGpt wCal4 =
      .ok { wCal4 with
        transform_matrix := some (wGpt wCal4.pixel_points wCal4.court_points),
        inverse_matrix := some (wGpt wCal4.court_points wCal4.pixel_points) } := by
    simp [CourtCalibrator.compute_transform, wCal4]
  exact ⟨_, hok, (h.2.2 wGpt wCal4 _ hok 50 50 1 2).imp id id⟩

/-! Claim C4. -/

/-- C4: for a frame gap `g` with `3 < g ≤ 15` the interpolation fills the
gap with exactly `g - 1` synthetic observations, one per intermediate
frame, with pixel coordinates and timestamp linearly interpolated,
court coordinates recomputed through the transform (absent on failure)
and confidence fixed at `0.5`; outside that range (`g ≤ 3` or `g > 15`,
including non-positive gaps) nothing is inserted; and the interpolated
trajectory expands every consecutive pair this way. -/
theorem interpolation_gap_fill (cal : CourtCalibrator) (p1 p2 : Detection) :
    (3 < p2.frame_id - p1.frame_id → p2.frame_id - p1.frame_id ≤ 15 →
      (interpSegment cal p1 p2).length = (p2.frame_id - p1.frame_id).toNat - 1 ∧
      ∀ k : Nat, k < (p2.frame_id - p1.frame_id).toNat - 1 →
        (interpSegment cal p1 p2).getD k dDefault =
          mkInterpolated cal p1 p2 (p2.frame_id - p1.frame_id) (1 + k)) ∧
    (∀ j : Nat, mkInterpolated cal p1 p2 (p2.frame_id - p1.frame_id) j =
      { frame_id := p1.frame_id + (j : Int),
        timestamp := p1.timestamp +
          ((j : ℚ) / ((p2.frame_id - p1.frame_id : Int) : ℚ)) * (p2.timestamp - p1.timestamp),
        pixel_x := p1.pixel_x +
          ((j : ℚ) / ((p2.frame_id - p1.frame_id : Int) : ℚ)) * (p2.pixel_x - p1.pixel_x),
        pixel_y := p1.pixel_y +
          ((j : ℚ) / ((p2.frame_id - p1.frame_id : Int) : ℚ)) * (p2.pixel_y - p1.pixel_y),
        court_x := (toCourtOpt cal
          (p1.pixel_x + ((j : ℚ) / ((p2.frame_id - p1.frame_id : Int) : ℚ)) * (p2.pixel_x - p1.pixel_x))
          (p1.pixel_y + ((j : ℚ) / ((p2.frame_id - p1.frame_id : Int) : ℚ)) * (p2.pixel_y - p1.pixel_y))).1,
        court_y := (toCourtOpt cal
          (p1.pixel_x + ((j : ℚ) / ((p2.frame_id - p1.frame_id : Int) : ℚ)) * (p2.pixel_x - p1.pixel_x))
          (p1.pixel_y + ((j : ℚ) / ((p2.frame_id - p1.frame_id : Int) : ℚ)) * (p2.pixel_y - p1.pixel_y))).2,
        confidence := 0.5,
        bbox_width := p1.bbox_width, bbox_height := p1.bbox_height }) ∧
    (¬(3 < p2.frame_id - p1.frame_id ∧ p2.frame_id - p1.frame_id ≤ 15) →
      interpSegment cal p1 p2 = []) ∧
    (∀ rest, interpolateAux cal (p1 :: p2 :: rest) =
      (p1 :: interpSegment cal p1 p2) ++ interpolateAux cal (p2 :: rest)) := by
  refine ⟨fun h3 h15 => ⟨?_, ?_⟩, fun j => rfl, fun hn => ?_, fun rest => rfl⟩
  · simp [interpSegment, h3, h15]
  · intro k hk
    rw [interpSegment, if_pos ⟨h3, h15⟩, List.getD_eq_getElem?_getD,
      List.getElem?_map, List.getElem?_range']
    · simp [hk]
    · exact hk
  · rw [interpSegment, if_neg hn]

/-- C4, witness: a frame gap of exactly 5 produces exactly 4 synthetic
intermediate observations (the first at frame 1 with linearly
interpolated fields and confidence 0.5), while a gap of 20 produces
none. -/
theorem interpolation_gap_fill_witness :
    (interpSegment { } wP1 wP2).length = 4 ∧
    (interpSegment { } wP1 wP2).getD 0 dDefault =
      mkInterpolated { } wP1 wP2 5 1 ∧
    interpSegment { } wP1 wP3 = [] := by
  have h2 := interpolation_gap_fill { } wP1 wP2
  have h3 := interpolation_gap_fill { } wP1 wP3
  have hg : wP2.frame_id - wP1.frame_id = 5 := by norm_num [wP1, wP2]
  have hg3 : wP3.frame_id - wP1.frame_id = 20 := by norm_num [wP1, wP3]
  refine ⟨?_, ?_, ?_⟩
  · have := (h2.1 (by rw [hg]; norm_num) (by rw [hg]; norm_num)).1
    rwa [hg] at this
  · have := (h2.1 (by rw [hg]; norm_num) (by rw [hg]; norm_num)).2 0 (by rw [hg]; norm_num)
    rwa [hg] at this
  · exact h3.2.2.1 (by rw [hg3]; norm_num)

/-! Structural lemmas about the streaming detector. -/

lemma detectOnRecent_cases (trk : BallTracker) (recent : List Detection) :
    detectOnRecent trk recent = trk ∨
    ∃ cx cy,
      (recent.getD (recent.length / 2) dDefault).court_x = some cx ∧
      (recent.getD (recent.length / 2) dDefault).court_y = some cy ∧
      trk.bounce_cooldown ≤
        (recent.getD (recent.length / 2) dDefault).timestamp - trk.last_bounce_time ∧
      detectOnRecent trk recent = { trk with
        bounces := trk.bounces ++
          [mkBounce (recent.getD (recent.length / 2) dDefault) cx cy],
        last_bounce_time := (recent.getD (recent.length / 2) dDefault).timestamp,
        last_bounce_frame := (recent.getD (recent.length / 2) dDefault).frame_id } := by
  unfold detectOnRecent
  dsimp only
  split
  · exact Or.inl rfl
  · split
    · split
      · exact Or.inl rfl
      · rename_i hcool
        split
        · rename_i cx cy hcx hcy
          split
          · exact Or.inr ⟨cx, cy, hcx, hcy, le_of_not_lt hcool, rfl⟩
          · exact Or.inl rfl
        · exact Or.inl rfl
        · exact Or.inl rfl
    · exact Or.inl rfl

lemma detectOnRecent_frame (trk : BallTracker) (recent : List Detection) :
    (detectOnRecent trk recent).positions = trk.positions ∧
    (detectOnRecent trk recent).all_positions = trk.all_positions ∧
    (detectOnRecent trk recent).fps = trk.fps ∧
    (detectOnRecent trk recent).bounce_cooldown = trk.bounce_cooldown := by
  rcases detectOnRecent_cases trk recent with h | ⟨cx, cy, _, _, _, h⟩ <;> rw [h] <;>
    exact ⟨rfl, rfl, rfl, rfl⟩

lemma detect_bounce_pixel_cases (trk : BallTracker) :
    detect_bounce_pixel trk = trk ∨
    (7 ≤ trk.positions.length ∧
      ∃ cx cy,
        (candOf trk).court_x = some cx ∧ (candOf trk).court_y = some cy ∧
        trk.bounce_cooldown ≤ (candOf trk).timestamp - trk.last_bounce_time ∧
        detect_bounce_pixel trk = { trk with
          bounces := trk.bounces ++ [mkBounce (candOf trk) cx cy],
          last_bounce_time := (candOf trk).timestamp,
          last_bounce_frame := (candOf trk).frame_id }) := by
  unfold detect_bounce_pixel
  split
  · exact Or.inl rfl
  · rename_i h
    have h7 : 7 ≤ trk.positions.length := le_of_not_lt h
    have hmid : (recentOf trk).length / 2 = 3 := by
      simp only [recentOf, List.length_drop]
      omega
    rcases detectOnRecent_cases trk (recentOf trk) with h' | ⟨cx, cy, h1, h2, h3, h'⟩
    · exact Or.inl h'
    · rw [hmid] at h1 h2 h3 h'
      exact Or.inr ⟨h7, cx, cy, h1, h2, h3, h'⟩

lemma detect_bounce_pixel_frame (trk : BallTracker) :
    (detect_bounce_pixel trk).positions = trk.positions ∧
    (detect_bounce_pixel trk).all_positions = trk.all_positions ∧
    (detect_bounce_pixel trk).fps = trk.fps ∧
    (detect_bounce_pixel trk).bounce_cooldown = trk.bounce_cooldown := by
  rcases detect_bounce_pixel_cases trk with h | ⟨_, cx, cy, _, _, _, h⟩ <;> rw [h] <;>
    exact ⟨rfl, rfl, rfl, rfl⟩

lemma detectOnRecent_explicit (trk : BallTracker) (a b c d e f g : Detection) :
    detectOnRecent trk [a, b, c, d, e, f, g] =
      (if (1/2 : ℚ) < listMax (timeGaps [a, b, c, d, e, f, g]) then trk
       else if (a.pixel_y + (b.pixel_y + c.pixel_y)) / 3 + 15 < d.pixel_y ∧
               (e.pixel_y + (f.pixel_y + g.pixel_y)) / 3 + 15 < d.pixel_y then
         (if d.timestamp - trk.last_bounce_time < trk.bounce_cooldown then trk
          else match d.court_x, d.court_y with
            | some cx, some cy =>
              if is_valid_court_position cx cy then
                { trk with
                  bounces := trk.bounces ++ [mkBounce d cx cy],
                  last_bounce_time := d.timestamp,
                  last_bounce_frame := d.frame_id }
              else trk
            | some _, none => trk
            | none, _ => trk)
       else trk) := by
  unfold detectOnRecent
  norm_num

/-! Claim C5. -/

/-- C5: in the streaming pass a candidate whose timestamp is within the
cooldown of the last accepted bounce is rejected (state unchanged), and
the detector either leaves the state unchanged or accepts the
window-center candidate, in which case the cooldown was satisfied and
the cooldown timer `last_bounce_time` is reset to the accepted
candidate's timestamp; so the timer resets only on acceptance, and two
bounce-shaped windows less than the cooldown apart yield only the first
bounce. -/
theorem streaming_cooldown (trk : BallTracker) (h7 : 7 ≤ trk.positions.length) :
    ((candOf trk).timestamp - trk.last_bounce_time < trk.bounce_cooldown →
      detect_bounce_pixel trk = trk) ∧
    (detect_bounce_pixel trk = trk ∨
      (trk.bounce_cooldown ≤ (candOf trk).timestamp - trk.last_bounce_time ∧
        ∃ cx cy, (candOf trk).court_x = some cx ∧ (candOf trk).court_y = some cy ∧
          detect_bounce_pixel trk = { trk with
            bounces := trk.bounces ++ [mkBounce (candOf trk) cx cy],
            last_bounce_time := (candOf trk).timestamp,
            last_bounce_frame := (candOf trk).frame_id })) := by
  constructor
  · intro hlt
    rcases detect_bounce_pixel_cases trk with h | ⟨_, cx, cy, _, _, hle, _⟩
    · exact h
    · exact absurd hle (not_le.mpr hlt)
  · rcases detect_bounce_pixel_cases trk with h | ⟨_, cx, cy, h1, h2, h3, h4⟩
    · exact Or.inl h
    · exact Or.inr ⟨h3, cx, cy, h1, h2, h4⟩

/-- C5, witness: on a tracker holding a bounce-shaped 7-observation
window whose center candidate (timestamp 0) is within the cooldown of
the last accepted bounce (timestamp 100), the streaming detector leaves
the state unchanged. -/
theorem streaming_cooldown_witness : detect_bounce_pixel wTrkCooling = wTrkCooling := by
  apply (streaming_cooldown wTrkCooling (by norm_num [wTrkCooling, wObs])).1
  norm_num [wTrkCooling, candOf, recentOf, wObs, mkObs, dDefault]

/-! Claim C3. -/

/-- C3: for a full 7-observation streaming window: if some consecutive
pair of observations is more than 0.5 s apart, the window is skipped
entirely (the state is unchanged); otherwise, under the side conditions
(cooldown elapsed, court coordinates present and valid) that make a
candidate observable, the center observation produces a bounce iff its
pixel-y exceeds both the average pixel-y of the first three
observations plus 15 and the average pixel-y of the last three
observations plus 15; and a window with monotone (non-decreasing or
non-increasing, in particular strictly monotone) pixel-y never changes
the state. -/
theorem streaming_window_rule (trk : BallTracker) (h7 : 7 ≤ trk.positions.length) :
    ((∃ gp ∈ timeGaps (recentOf trk), (1/2 : ℚ) < gp) → detect_bounce_pixel trk = trk) ∧
    ((∀ gp ∈ timeGaps (recentOf trk), gp ≤ (1/2 : ℚ)) →
      ∀ cx cy, (candOf trk).court_x = some cx → (candOf trk).court_y = some cy →
      ¬((candOf trk).timestamp - trk.last_bounce_time < trk.bounce_cooldown) →
      is_valid_court_position cx cy = true →
      (((detect_bounce_pixel trk).bounces =
          trk.bounces ++ [mkBounce (candOf trk) cx cy]) ↔
        ((((recentOf trk).map Detection.pixel_y).take 3).sum / 3 + 15 <
            ((recentOf trk).map Detection.pixel_y).getD 3 0 ∧
          (((recentOf trk).map Detection.pixel_y).drop 4).sum / 3 + 15 <
            ((recentOf trk).map Detection.pixel_y).getD 3 0))) ∧
    ((List.Chain' (· ≤ ·) ((recentOf trk).map Detection.pixel_y) ∨
        List.Chain' (fun u v : ℚ => v ≤ u) ((recentOf trk).map Detection.pixel_y)) →
      detect_bounce_pixel trk = trk) := by
  have hne : ¬(trk.positions.length < 7) := not_lt.mpr h7
  have hlen : (recentOf trk).length = 7 := by
    simp only [recentOf, List.length_drop]
    omega
  obtain ⟨a, b, c, d, e, f, g, hrec⟩ := exists_eq_of_length_seven _ hlen
  have hd : detect_bounce_pixel trk = detectOnRecent trk (recentOf trk) := by
    rw [detect_bounce_pixel, if_neg hne]
  have hcand : candOf trk = d := by rw [candOf, hrec]; rfl
  refine ⟨?_, ?_, ?_⟩
  · intro hex
    obtain ⟨gp, hmem, hgt⟩ := hex
    rw [hrec] at hmem
    have hmax : (1/2 : ℚ) < listMax (timeGaps [a, b, c, d, e, f, g]) :=
      lt_of_lt_of_le hgt (le_listMax _ _ hmem)
    rw [hd, hrec, detectOnRecent_explicit, if_pos hmax]
  · intro hall cx cy hcx hcy hncool hvalid
    rw [hcand] at hcx hcy hncool
    rw [hd, hcand, hrec, detectOnRecent_explicit]
    have hmax : ¬((1/2 : ℚ) < listMax (timeGaps [a, b, c, d, e, f, g])) := by
      rw [hrec] at hall
      exact not_lt.mpr (listMax_le _ _ (by norm_num) hall)
    rw [if_neg hmax]
    have hsl : ((List.map Detection.pixel_y [a, b, c, d, e, f, g]).take 3).sum =
        a.pixel_y + (b.pixel_y + c.pixel_y) := by simp
    have hsr : ((List.map Detection.pixel_y [a, b, c, d, e, f, g]).drop 4).sum =
        e.pixel_y + (f.pixel_y + g.pixel_y) := by simp
    have hgd : (List.map Detection.pixel_y [a, b, c, d, e, f, g]).getD 3 0 =
        d.pixel_y := rfl
    rw [hsl, hsr, hgd]
    by_cases hshape : (a.pixel_y + (b.pixel_y + c.pixel_y)) / 3 + 15 < d.pixel_y ∧
        (e.pixel_y + (f.pixel_y + g.pixel_y)) / 3 + 15 < d.pixel_y
    · rw [if_pos hshape, if_neg hncool, hcx, hcy]
      simp only [hvalid, if_true]
      simpa using hshape
    · rw [if_neg hshape]
      simp [hshape]
  · intro hmono
    rw [hd, hrec, detectOnRecent_explicit]
    by_cases hmax : (1/2 : ℚ) < listMax (timeGaps [a, b, c, d, e, f, g])
    · rw [if_pos hmax]
    · rw [if_neg hmax]
      rw [hrec] at hmono
      have hshape : ¬((a.pixel_y + (b.pixel_y + c.pixel_y)) / 3 + 15 < d.pixel_y ∧
          (e.pixel_y + (f.pixel_y + g.pixel_y)) / 3 + 15 < d.pixel_y) := by
        rcases hmono with hmono | hmono <;>
          simp only [List.map_cons, List.map_nil, List.chain'_cons, List.chain'_nil,
            and_true] at hmono <;>
          rintro ⟨hL, hR⟩ <;>
          linarith [hmono.1, hmono.2.1, hmono.2.2.1, hmono.2.2.2.1, hmono.2.2.2.2.1,
            hmono.2.2.2.2.2]
      rw [if_neg hshape]

/-- C3, witness: on the bounce-shaped window `wObs` (flat, a 100-pixel
dip at the center frame, flat again, all gaps within 0.5 s) the
streaming pass accepts exactly the center candidate as a bounce. -/
theorem streaming_window_rule_witness :
    (detect_bounce_pixel wTrk).bounces = [mkBounce (mkObs 3 100) 0 0] := by
  have h := (streaming_window_rule wTrk (by norm_num [wTrk, wObs])).2.1
  have hgap : ∀ gp ∈ timeGaps (recentOf wTrk), gp ≤ (1/2 : ℚ) := by
    norm_num [recentOf, wTrk, wObs, mkObs, timeGaps]
  have hcand : candOf wTrk = mkObs 3 100 := by
    norm_num [candOf, recentOf, wTrk, wObs]
  have hmain := (h hgap 0 0 (by rw [hcand]; rfl) (by rw [hcand]; rfl)
    (by rw [hcand]; norm_num [wTrk, mkObs])
    (by norm_num [is_valid_court_position, MAX_X, MAX_Y, SINGLES_HALF_WIDTH, HALF_LENGTH])).mpr
    (by norm_num [recentOf, wTrk, wObs, mkObs])
  rw [hcand] at hmain
  simpa [wTrk] using hmain

/-! Streaming-pass invariant machinery. -/

lemma mkBounce_fields (d : Detection) (cx cy : ℚ) :
    (mkBounce d cx cy).timestamp = d.timestamp ∧
    (mkBounce d cx cy).frame_id = d.frame_id := ⟨rfl, rfl⟩

lemma verdictOK_mkBounce (d : Detection) (cx cy : ℚ) :
    VerdictOK (mkBounce d cx cy) := ⟨rfl, rfl⟩

lemma add_detection_eq (trk : BallTracker) (d : Detection) :
    add_detection trk d = detect_bounce_pixel
      (if 60 < (trk.positions ++ [d]).length then
        { trk with positions := (trk.positions ++ [d]).tail,
                   all_positions := trk.all_positions ++ [d] }
      else
        { trk with positions := trk.positions ++ [d],
                   all_positions := trk.all_positions ++ [d] }) := by
  unfold add_detection
  dsimp only

lemma add_detection_cases (trk : BallTracker) (d : Detection) :
    ∃ base : BallTracker,
      add_detection trk d = detect_bounce_pixel base ∧
      base.bounces = trk.bounces ∧
      base.bounce_cooldown = trk.bounce_cooldown ∧
      base.last_bounce_time = trk.last_bounce_time ∧
      base.all_positions = trk.all_positions ++ [d] ∧
      (trk.positions.length ≤ trk.all_positions.length →
        base.positions.length ≤ base.all_positions.length) := by
  rw [add_detection_eq]
  by_cases h : 60 < (trk.positions ++ [d]).length
  · rw [if_pos h]
    refine ⟨_, rfl, rfl, rfl, rfl, rfl, ?_⟩
    intro hle
    simp only [List.length_tail, List.length_append, List.length_cons, List.length_nil]
    omega
  · rw [if_neg h]
    refine ⟨_, rfl, rfl, rfl, rfl, rfl, ?_⟩
    intro hle
    simp only [List.length_append, List.length_cons, List.length_nil]
    omega

lemma streamInv_init (f c : ℚ) : StreamInv c (BallTracker.init f c) := by
  exact ⟨rfl, List.Pairwise.nil, by simp [BallTracker.init], by simp [BallTracker.init],
    fun _ => rfl⟩

lemma streamInv_add (c : ℚ) (hc : 0 ≤ c) (trk : BallTracker)
    (h : StreamInv c trk) (d : Detection) : StreamInv c (add_detection trk d) := by
  obtain ⟨hcd, hpw, hlast, hlen, hempty⟩ := h
  obtain ⟨base, heq, hb, hbc, hbl, hba, hbp⟩ := add_detection_cases trk d
  have hbase : StreamInv c base := by
    refine ⟨hbc.trans hcd, hb ▸ hpw, ?_, hbp hlen, ?_⟩
    · intro x hx
      rw [hbl]
      exact hlast x (hb ▸ hx)
    · intro hlt
      rw [hb]
      exact hempty (by rw [hba] at hlt; simp at hlt; omega)
  rw [heq]
  obtain ⟨hbc', hpw', hlast', hlen', hempty'⟩ := hbase
  rcases detect_bounce_pixel_cases base with h' | ⟨h7, cx, cy, hcx, hcy, hcool, h'⟩
  · rw [h']
    exact ⟨hbc', hpw', hlast', hlen', hempty'⟩
  · rw [h']
    have hts : (mkBounce (candOf base) cx cy).timestamp = (candOf base).timestamp :=
      (mkBounce_fields _ _ _).1
    rw [hbc'] at hcool
    refine ⟨hbc', ?_, ?_, hlen', ?_⟩
    · rw [List.pairwise_append]
      refine ⟨hpw', List.pairwise_singleton _ _, ?_⟩
      intro u hu v hv
      rw [List.mem_singleton] at hv
      subst hv
      rw [hts]
      have := hlast' u hu
      linarith
    · intro x hx
      rcases List.mem_append.mp hx with hx | hx
      · have := hlast' x hx
        linarith
      · rw [List.mem_singleton] at hx
        subst hx
        rw [hts]
    · intro hlt
      exact absurd (lt_of_le_of_lt (le_trans h7 hlen') hlt) (by omega)

lemma streamInv_run (f c : ℚ) (hc : 0 ≤ c) (obs : List Detection) :
    StreamInv c (runTracker f c obs) := by
  suffices h : ∀ trk, StreamInv c trk → StreamInv c (obs.foldl add_detection trk) from
    h _ (streamInv_init f c)
  induction obs with
  | nil => exact fun trk h => h
  | cons d rest ih => exact fun trk h => ih _ (streamInv_add c hc trk h d)

lemma verdict_add (trk : BallTracker) (d : Detection)
    (h : ∀ b ∈ trk.bounces, VerdictOK b) :
    ∀ b ∈ (add_detection trk d).bounces, VerdictOK b := by
  obtain ⟨base, heq, hb, -, -, -, -⟩ := add_detection_cases trk d
  rw [heq]
  rcases detect_bounce_pixel_cases base with h' | ⟨-, cx, cy, -, -, -, h'⟩ <;> rw [h']
  · rw [hb]; exact h
  · intro x hx
    rcases List.mem_append.mp hx with hx | hx
    · exact h x (hb ▸ hx)
    · rw [List.mem_singleton] at hx
      subst hx
      exact verdictOK_mkBounce _ _ _

lemma verdict_run (f c : ℚ) (obs : List Detection) :
    ∀ b ∈ (runTracker f c obs).bounces, VerdictOK b := by
  suffices h : ∀ trk, (∀ b ∈ trk.bounces, VerdictOK b) →
      ∀ b ∈ (obs.foldl add_detection trk).bounces, VerdictOK b from
    h _ (by simp [BallTracker.init])
  induction obs with
  | nil => exact fun trk h => h
  | cons d rest ih => exact fun trk h => ih _ (verdict_add trk d h)

/-! Batch-pass and merge machinery. -/

lemma batchStep_cases (c : ℚ) (ex acc : List Bounce) (w : List Detection) :
    batchStep c ex acc w = acc ∨
    ∃ cx cy,
      (w.getD 3 dDefault).court_x = some cx ∧ (w.getD 3 dDefault).court_y = some cy ∧
      (∀ b ∈ ex ++ acc, c ≤ |b.timestamp - (w.getD 3 dDefault).timestamp|) ∧
      batchStep c ex acc w = acc ++ [mkBounce (w.getD 3 dDefault) cx cy] := by
  unfold batchStep
  dsimp only
  split
  · split
    · exact Or.inl rfl
    · rename_i hdup
      split
      · rename_i cx cy hcx hcy
        split
        · right
          refine ⟨cx, cy, hcx, hcy, ?_, rfl⟩
          intro b hb
          simp only [List.any_eq_true, decide_eq_true_eq, not_exists, not_and,
            not_lt] at hdup
          exact hdup b hb
        · exact Or.inl rfl
      · exact Or.inl rfl
      · exact Or.inl rfl
  · exact Or.inl rfl

lemma batchLoop_cons (c : ℚ) (ex acc : List Bounce) (d : Detection)
    (rest : List Detection) :
    batchLoop c ex acc (d :: rest) =
      if 7 ≤ (d :: rest).length then
        batchLoop c ex (batchStep c ex acc ((d :: rest).take 7)) rest
      else acc := rfl

lemma sep_symmetric (c : ℚ) :
    Symmetric (fun u v : Bounce => c ≤ |u.timestamp - v.timestamp|) := by
  intro u v h
  rwa [abs_sub_comm]

lemma batchLoop_pairwise (c : ℚ) (ex : List Bounce) (traj : List Detection) :
    ∀ acc : List Bounce,
      List.Pairwise (fun u v : Bounce => c ≤ |u.timestamp - v.timestamp|) (ex ++ acc) →
      List.Pairwise (fun u v : Bounce => c ≤ |u.timestamp - v.timestamp|)
        (ex ++ batchLoop c ex acc traj) := by
  induction traj with
  | nil => exact fun acc h => h
  | cons d rest ih =>
    intro acc h
    rw [batchLoop_cons]
    split
    · apply ih
      rcases batchStep_cases c ex acc ((d :: rest).take 7) with hs | ⟨cx, cy, -, -, hsep, hs⟩
      · rwa [hs]
      · rw [hs, ← List.append_assoc, List.pairwise_append]
        refine ⟨h, List.pairwise_singleton _ _, ?_⟩
        intro u hu v hv
        rw [List.mem_singleton] at hv
        subst hv
        rw [(mkBounce_fields _ _ _).1]
        exact hsep u hu
    · exact h

lemma batchLoop_mem (c : ℚ) (ex : List Bounce) (traj : List Detection) :
    ∀ acc : List Bounce, (∀ b ∈ acc, VerdictOK b) →
      ∀ b ∈ batchLoop c ex acc traj, VerdictOK b := by
  induction traj with
  | nil => exact fun acc h => h
  | cons d rest ih =>
    intro acc h
    rw [batchLoop_cons]
    split
    · apply ih
      rcases batchStep_cases c ex acc ((d :: rest).take 7) with hs | ⟨cx, cy, -, -, -, hs⟩
      · rwa [hs]
      · rw [hs]
        intro b hb
        rcases List.mem_append.mp hb with hb | hb
        · exact h b hb
        · rw [List.mem_singleton] at hb
          subst hb
          exact verdictOK_mkBounce _ _ _
    · exact h

lemma pairwise_sep_of_stream (c : ℚ) (hc : 0 ≤ c) (l : List Bounce)
    (h : List.Pairwise (fun u v : Bounce => u.timestamp + c ≤ v.timestamp) l) :
    List.Pairwise (fun u v : Bounce => c ≤ |u.timestamp - v.timestamp|) l := by
  refine h.imp ?_
  intro u v huv
  rw [abs_sub_comm, abs_of_nonneg (by linarith)]
  linarith

lemma interp_snd (cal : CourtCalibrator) (trk : BallTracker) :
    (interpolate_trajectory cal trk).2 = trk := by
  unfold interpolate_trajectory
  split <;> rfl

lemma le_length_interpolateAux (cal : CourtCalibrator) :
    ∀ l : List Detection, l.length ≤ (interpolateAux cal l).length
  | [] => le_refl _
  | [p] => le_refl _
  | p1 :: p2 :: rest => by
    have ih := le_length_interpolateAux cal (p2 :: rest)
    simp only [interpolateAux, List.length_append, List.length_cons] at *
    omega

lemma interp_fst_length (cal : CourtCalibrator) (trk : BallTracker) :
    trk.all_positions.length ≤ (interpolate_trajectory cal trk).1.length := by
  unfold interpolate_trajectory
  split
  · exact le_refl _
  · exact le_length_interpolateAux cal _

lemma detect_bounces_snd (cal : CourtCalibrator) (trk : BallTracker) :
    (detect_bounces_from_trajectory cal trk).2 = trk := by
  unfold detect_bounces_from_trajectory
  dsimp only
  split <;> simp [interp_snd]

lemma detect_bounces_fst_cases (cal : CourtCalibrator) (trk : BallTracker) :
    ((interpolate_trajectory cal trk).1.length < 7 ∧
      (detect_bounces_from_trajectory cal trk).1 = trk.bounces) ∨
    (detect_bounces_from_trajectory cal trk).1 =
      (trk.bounces ++
        batchLoop trk.bounce_cooldown trk.bounces [] (interpolate_trajectory cal trk).1).mergeSort
        (fun u v => decide (u.frame_id ≤ v.frame_id)) := by
  unfold detect_bounces_from_trajectory
  dsimp only
  split
  · rename_i h
    exact Or.inl ⟨h, by rw [interp_snd]⟩
  · right
    rw [interp_snd]

/-! Claim C2. -/

/-- C2: for every observation sequence (run through streaming ingestion
with a nonnegative configured cooldown `c`), every streaming bounce is
at least the cooldown after the previously accepted one, and the final
list returned by `detect_bounces_from_trajectory` is sorted ascending by
`frame_id` with no two bounces closer than the cooldown in timestamp
(batch candidates within the cooldown of any existing bounce are
discarded). -/
theorem final_list_sorted_and_separated (fps c : ℚ) (hc : 0 ≤ c)
    (cal : CourtCalibrator) (obs : List Detection) :
    List.Pairwise (fun u v : Bounce => u.timestamp + c ≤ v.timestamp)
      (runTracker fps c obs).bounces ∧
    List.Sorted (fun u v : Bounce => u.frame_id ≤ v.frame_id)
      (detect_bounces_from_trajectory cal (runTracker fps c obs)).1 ∧
    List.Pairwise (fun u v : Bounce => c ≤ |u.timestamp - v.timestamp|)
      (detect_bounces_from_trajectory cal (runTracker fps c obs)).1 := by
  obtain ⟨hcd, hpw, hlast, hlen, hempty⟩ := streamInv_run fps c hc obs
  refine ⟨hpw, ?_⟩
  rcases detect_bounces_fst_cases cal (runTracker fps c obs) with ⟨hshort, heq⟩ | heq
  · have hb : (runTracker fps c obs).bounces = [] :=
      hempty (lt_of_le_of_lt (interp_fst_length cal _) hshort)
    rw [heq, hb]
    exact ⟨List.sorted_nil, List.Pairwise.nil⟩
  · rw [heq]
    constructor
    · have hs := @List.sorted_mergeSort Bounce
        (fun u v : Bounce => decide (u.frame_id ≤ v.frame_id))
        (fun a b c hab hbc => by
          simp only [decide_eq_true_eq] at *
          omega)
        (fun a b => by
          simp only [Bool.or_eq_true, decide_eq_true_eq]
          omega)
        ((runTracker fps c obs).bounces ++
          batchLoop (runTracker fps c obs).bounce_cooldown
            (runTracker fps c obs).bounces []
            (interpolate_trajectory cal (runTracker fps c obs)).1)
      exact hs.imp (by simp)
    · have hperm := List.mergeSort_perm
        ((runTracker fps c obs).bounces ++
          batchLoop (runTracker fps c obs).bounce_cooldown
            (runTracker fps c obs).bounces []
            (interpolate_trajectory cal (runTracker fps c obs)).1)
        (fun u v : Bounce => decide (u.frame_id ≤ v.frame_id))
      refine (hperm.pairwise_iff fun h => sep_symmetric c h).mpr ?_
      rw [hcd]
      exact batchLoop_pairwise c _ _ [] (by
        simpa using pairwise_sep_of_stream c hc _ hpw)

/-- C2, witness: on the concrete bounce-shaped observation sequence
`wObs` with the default cooldown 1/2, the final bounce list is sorted by
frame id and cooldown-separated. -/
theorem final_list_sorted_and_separated_witness :
    List.Sorted (fun u v : Bounce => u.frame_id ≤ v.frame_id)
      (detect_bounces_from_trajectory { } (runTracker 30 (1/2) wObs)).1 ∧
    List.Pairwise (fun u v : Bounce => (1/2 : ℚ) ≤ |u.timestamp - v.timestamp|)
      (detect_bounces_from_trajectory { } (runTracker 30 (1/2) wObs)).1 :=
  (final_list_sorted_and_separated 30 (1/2) (by norm_num) { } wObs).2

/-! Claim C9. -/

/-- C9: every bounce in the final list (produced by either pass) carries
the verdict computed by `is_point_in_bounds` at its stored court
coordinates with the default `match_type` `"singles"` (half-width
4.115 m); the doubles half-width is never used. -/
theorem bounce_verdict_always_singles (fps c : ℚ) (cal : CourtCalibrator)
    (obs : List Detection) :
    ∀ b ∈ (detect_bounces_from_trajectory cal (runTracker fps c obs)).1,
      b.is_in = (is_point_in_bounds b.court_x b.court_y "singles").1 ∧
      b.distance_from_line = (is_point_in_bounds b.court_x b.court_y "singles").2.1 := by
  intro b hb
  have hstream := verdict_run fps c obs
  rcases detect_bounces_fst_cases cal (runTracker fps c obs) with ⟨-, heq⟩ | heq
  · rw [heq] at hb
    exact hstream b hb
  · rw [heq] at hb
    rcases List.mem_append.mp (List.mem_mergeSort.mp hb) with h | h
    · exact hstream b h
    · exact batchLoop_mem _ _ _ [] (by simp) b h

/-- C9, witness: the concrete run on `wObs` produces the bounce
`wBounce` in the final list, and its stored verdict equals the
singles-court classification of its court coordinates. -/
theorem bounce_verdict_always_singles_witness :
    wBounce ∈ (detect_bounces_from_trajectory { } (runTracker 30 (1/2) wObs)).1 ∧
    wBounce.is_in = (is_point_in_bounds wBounce.court_x wBounce.court_y "singles").1 := by
  have hrun : runTracker 30 (1/2) wObs = wTrkAfter := by
    norm_num [runTracker, wObs, BallTracker.init, add_detection, detect_bounce_pixel,
      detectOnRecent, recentOf, timeGaps, listMax, mkObs, dDefault, mkBounce,
      is_point_in_bounds, is_valid_court_position, MAX_X, MAX_Y,
      SINGLES_HALF_WIDTH, HALF_LENGTH, min_def, wTrkAfter, wBounce]
  have hfull : (interpolate_trajectory { } wTrkAfter).1 = wObs := by
    norm_num [interpolate_trajectory, interpolateAux, interpSegment, wTrkAfter,
      wObs, mkObs]
  have hmem : wBounce ∈ (detect_bounces_from_trajectory { } (runTracker 30 (1/2) wObs)).1 := by
    rw [hrun]
    rcases detect_bounces_fst_cases { } wTrkAfter with ⟨hshort, -⟩ | heq
    · rw [hfull] at hshort
      norm_num [wObs] at hshort
    · rw [heq]
      refine List.mem_mergeSort.mpr (List.mem_append_left _ ?_)
      simp [wTrkAfter]
  exact ⟨hmem, (bounce_verdict_always_singles 30 (1/2) { } wObs wBounce hmem).1⟩

/-! Claim C10. -/

/-- C10: `detect_bounces_from_trajectory` leaves the tracker state
(streaming bounce list, sliding window, full history, cooldown state)
unchanged, and a second call on the post-call state returns the same
bounce list. -/
theorem finalize_leaves_state_unchanged (cal : CourtCalibrator) (trk : BallTracker) :
    (detect_bounces_from_trajectory cal trk).2 = trk ∧
    (detect_bounces_from_trajectory cal
        ((detect_bounces_from_trajectory cal trk).2)).1 =
      (detect_bounces_from_trajectory cal trk).1 :=
  ⟨detect_bounces_snd cal trk, by rw [detect_bounces_snd]⟩

/-- C10, witness: concrete instance on the tracker state reached from
`wObs`. -/
theorem finalize_leaves_state_unchanged_witness :
    (detect_bounces_from_trajectory { } wTrkAfter).2 = wTrkAfter :=
  (finalize_leaves_state_unchanged { } wTrkAfter).1

/-! Claim C7. -/

/-- C7, counterexample: after `detect_bounces_from_trajectory` has been
called on a fresh tracker, a further `add_detection` call is accepted
and recorded (the pushed observation ends up in both buffers); no
`AlreadyFinalized` error exists anywhere in the tracker. -/
theorem push_after_finalize_is_accepted :
    (add_detection (detect_bounces_from_trajectory { } (BallTracker.init 30 0.5)).2
      wP1).all_positions = [wP1] ∧
    (add_detection (detect_bounces_from_trajectory { } (BallTracker.init 30 0.5)).2
      wP1).positions = [wP1] :=
  ⟨rfl, rfl⟩

/-- C7, amended: the tracker has no finalized state: an `add_detection`
call after `detect_bounces_from_trajectory` behaves exactly as it would
without the preceding call, and the pushed observation is always
appended to the full history (it is accepted, never an error). -/
theorem push_after_finalize_behaves_normally (cal : CourtCalibrator)
    (trk : BallTracker) (d : Detection) :
    add_detection ((detect_bounces_from_trajectory cal trk).2) d =
      add_detection trk d ∧
    (add_detection trk d).all_positions = trk.all_positions ++ [d] := by
  refine ⟨by rw [detect_bounces_snd], ?_⟩
  obtain ⟨base, heq, -, -, -, hall, -⟩ := add_detection_cases trk d
  rw [heq, (detect_bounce_pixel_frame base).2.1, hall]

end HawkEye
